import Mathlib

set_option maxHeartbeats 1000000
set_option maxRecDepth 16384

namespace AIagent

/-! Shallow embedding of the context retrieval and assembly engine of the
repository (backend/app/llm_service.py and backend/app/knowledge_service.py).
Python strings are modelled as Lean `String` (a list of unicode code points,
matching Python's `len`/slicing semantics); machine-learning model calls are
modelled as explicit oracle parameters (`Except` values / response payloads). -/

/-! ### String helpers modelling Python primitives -/

/-- Python `s.lower()` (ASCII case folding; the characters the code compares
are ASCII filenames and CJK text, which Python lowercases identically). -/
def pyLower (s : String) : String := String.mk (s.data.map Char.toLower)

/-- Python `s.strip()`. -/
def pyStrip (s : String) : String :=
  String.mk (((s.data.dropWhile Char.isWhitespace).reverse.dropWhile Char.isWhitespace).reverse)

/-- Python `s.startswith(p)`. -/
def pyStartsWith (s p : String) : Bool := p.data.isPrefixOf s.data

/-- Helper for substring search: does `nee` occur in the given character list? -/
def segContains (nee : List Char) : List Char → Bool
  | [] => nee.isEmpty
  | c :: rest => nee.isPrefixOf (c :: rest) || segContains nee rest

/-- Python `nee in hay` for strings (substring containment). -/
def pyContains (hay nee : String) : Bool := segContains nee.data hay.data

/-- Python `s[:n]` for a nonnegative bound. -/
def pyTake (s : String) (n : Nat) : String := String.mk (s.data.take n)

/-- Python `s.rsplit(".", 1)[0]`: everything before the last dot, or the whole
string when there is no dot. -/
def pyStem (s : String) : String :=
  if s.data.contains '.' then
    String.mk (((s.data.reverse.dropWhile (fun c => c ≠ '.')).drop 1).reverse)
  else s

/-- Python `sep.join(parts)`. -/
def joinSep (sep : String) : List String → String
  | [] => ""
  | x :: xs => xs.foldl (fun a b => a ++ sep ++ b) x

theorem strLength_mk (l : List Char) : (String.mk l).length = l.length := rfl

theorem strData_append (a b : String) : (a ++ b).data = a.data ++ b.data := rfl

theorem strLength_append (a b : String) : (a ++ b).length = a.length + b.length := by
  cases a with
  | mk la =>
    cases b with
    | mk lb =>
      show (String.mk (la ++ lb)).length = _
      simp [strLength_mk, String.length]

theorem pyTake_length (s : String) (n : Nat) : (pyTake s n).length = min n s.length := by
  cases s with
  | mk l => simp [pyTake, strLength_mk, String.length, List.length_take]

/-! ### History compressor (`_compress_history_messages`, `_summarize_history`,
`_history_dict_to_message` in llm_service.py) -/

/-- One element of the incoming `history` list: either not a dict at all, or a
dict with optional `role` and `content` values. -/
inductive HItem where
  | notDict
  | item (role : Option String) (content : Option String)
deriving DecidableEq

/-- A normalized turn produced by the first loop of `_compress_history_messages`:
role is `"user"` or `"ai"`, content is present. -/
structure NormMsg where
  role : String
  content : String
deriving DecidableEq

/-- A LangChain message, as produced by the compressor. -/
inductive ChatMsg where
  | system (content : String)
  | human (content : String)
  | ai (content : String)
deriving DecidableEq

/-- The normalization step of `_compress_history_messages`: drop non-dicts,
drop roles other than user/ai/assistant (case-insensitively), drop missing
content, and map assistant to ai. -/
def qualifyTurn (it : HItem) : Option NormMsg :=
  match it with
  | .notDict => none
  | .item role content =>
    let r := pyLower (role.getD "")
    if r = "user" ∨ r = "ai" ∨ r = "assistant" then
      match content with
      | none => none
      | some c => some ⟨if r = "user" then "user" else "ai", c⟩
    else none

def normalizedHistory (h : List HItem) : List NormMsg := h.filterMap qualifyTurn

/-- The per-message truncation inside `_history_dict_to_message`. -/
def truncateMsgContent (c : String) : String :=
  if 12000 < c.length then pyTake c 12000 ++ "\n（单条消息过长已截断）" else c

/-- Embedding of `_history_dict_to_message` on an already-normalized turn. -/
def historyDictToMessage (m : NormMsg) : Option ChatMsg :=
  let role := pyLower m.role
  let content := truncateMsgContent m.content
  if role = "user" then some (.human content)
  else if role = "ai" ∨ role = "assistant" then some (.ai content)
  else none

/-- The conversion that `_history_dict_to_message` performs on every turn the
normalization step lets through. -/
def convMsg (m : NormMsg) : ChatMsg :=
  if pyLower m.role = "user" then .human (truncateMsgContent m.content)
  else .ai (truncateMsgContent m.content)

/-- The label given to a turn inside `_summarize_history`. -/
def summaryLabel (role : String) : String :=
  if role = "user" then "用户"
  else if role = "ai" ∨ role = "assistant" then "助手"
  else ""

/-- One line of the transcript handed to the summarization model. -/
def summaryLine (m : NormMsg) : Option String :=
  let label := summaryLabel (pyLower m.role)
  if label = "" then none
  else
    let text := pyStrip m.content
    if text = "" then none
    else some (label ++ ": " ++ (if 4000 < text.length then pyTake text 4000 ++ "…" else text))

/-- The generic placeholder substituted when summarization fails or returns
nothing: it states how many older messages were omitted. -/
def placeholderSummary (n : Nat) : String :=
  "（已省略更早的 " ++ toString n ++ " 条对话消息）"

/-- The stripped content of the summarization model response; an exception at
the call site (`.error`) yields the empty string, as the code's handler does. -/
def respText (r : Except Unit String) : String :=
  match r with
  | .error _ => ""
  | .ok s => pyStrip s

/-- The `if not summary` substitution of the placeholder. -/
def summaryCore (n : Nat) (s0 : String) : String :=
  if s0 = "" then placeholderSummary n else s0

/-- The final 4,000-character truncation of the summary. -/
def capSummary (s : String) : String :=
  if 4000 < s.length then pyTake s 4000 ++ "…" else s

/-- Embedding of `_summarize_history`.  The summarization model call is the
oracle `llmResp`: `.error` models an exception at the call site, `.ok s` a
response whose content is `s`. -/
def summarizeHistory (h : List NormMsg) (llmResp : Except Unit String) : String :=
  if h.isEmpty then ""
  else if joinSep "\n" (h.filterMap summaryLine) = "" then ""
  else capSummary (summaryCore h.length (respText llmResp))

/-- Python `l[:-k]` (empty when `k = 0`, since `l[:-0]` is `l[:0]`). -/
def pySliceDropLast (l : List NormMsg) (k : Nat) : List NormMsg :=
  if k = 0 then [] else l.take (l.length - k)

/-- Python `l[-k:]` (the whole list when `k = 0`, since `l[-0:]` is `l[0:]`). -/
def pySliceLast (l : List NormMsg) (k : Nat) : List NormMsg :=
  if k = 0 then l else l.drop (l.length - k)

/-- The synthetic leading message that carries the summary. -/
def summaryLeadMessage (summary : String) : ChatMsg :=
  .system ("以下是更早对话的摘要（用于补充上下文，不必逐字引用）：\n" ++ summary)

/-- Embedding of `_compress_history_messages`. -/
def compressHistoryMessages (history : List HItem) (llmResp : Except Unit String)
    (keepLast : Nat) : List ChatMsg :=
  if history.isEmpty then []
  else
    let normalized := normalizedHistory history
    if normalized.isEmpty then []
    else if normalized.length ≤ keepLast then normalized.filterMap historyDictToMessage
    else
      let older := pySliceDropLast normalized keepLast
      let recent := pySliceLast normalized keepLast
      let summary := summarizeHistory older llmResp
      summaryLeadMessage summary :: recent.filterMap historyDictToMessage

/-! ### Knowledge vector index (knowledge_service.py) -/

/-- A row of the knowledge_documents table.  `content` empty models a falsy
(`None`/empty) content column, in which case `raw_content` is the fallback. -/
structure KnowledgeDocument where
  id : Nat
  title : String
  content : String
  raw_content : String
  source : String
deriving DecidableEq

/-- Embedding of `_signature_from_docs`: `(document count, max document id)`. -/
def signatureFromDocs (docs : List KnowledgeDocument) : Nat × Nat :=
  (docs.length, docs.foldl (fun m d => if m < d.id then d.id else m) 0)

/-- The forward-scanning loop of `_chunk_text`, starting at offset `start`. -/
def chunkFrom (cleaned : List Char) (start : Nat) : List (List Char) :=
  if h : start < cleaned.length then
    let stop := min cleaned.length (start + 800)
    let piece := (cleaned.drop start).take (stop - start)
    if h2 : cleaned.length ≤ stop then [piece]
    else piece :: chunkFrom cleaned (stop - 100)
  else []
termination_by cleaned.length - start
decreasing_by
  omega

/-- Embedding of `_chunk_text` with the default window 800 and overlap 100. -/
def chunkText (text : String) : List String :=
  let cleaned := pyStrip text
  if cleaned = "" then []
  else (chunkFrom cleaned.data 0).map String.mk

/-- The metadata kept with every chunk for citation. -/
structure ChunkMeta where
  source : String
  docId : Nat
  title : String
deriving DecidableEq

/-- Texts and metadata contributed by one document during the build loop of
`_get_or_build_vector_store`. -/
def docTexts (doc : KnowledgeDocument) : List (String × ChunkMeta) :=
  let base := if doc.content ≠ "" then doc.content else doc.raw_content
  if pyStrip base = "" then []
  else
    let text := "Title: " ++ doc.title ++ "\n\n" ++ base
    (chunkText text).map (fun c => (c, ⟨doc.source, doc.id, doc.title⟩))

/-- All chunk texts and metadata gathered over the document list. -/
def buildTexts (docs : List KnowledgeDocument) : List (String × ChunkMeta) :=
  (docs.map docTexts).flatten

/-- A JSON-like value, modelling the payloads the embedding endpoint returns. -/
inductive JVal where
  | jnull
  | jstr (s : String)
  | jnum (n : Int)
  | jarr (items : List JVal)
  | jobj (fields : List (String × JVal))

/-- Python `obj.get(key)` / `obj[key]` lookup on a JSON object; `none` both for
a non-object and for a missing key. -/
def jGet (v : JVal) (k : String) : Option JVal :=
  match v with
  | .jobj fields => (fields.find? (fun p => p.1 == k)).map (fun p => p.2)
  | _ => none

/-- The sort key `x.get("index", 0)` of `DoubaoEmbeddings.embed_documents`.
A non-object item raises (AttributeError) in Python and is modelled as a
failure; index values other than integers are likewise modelled as failures. -/
def itemIndex (it : JVal) : Except String Int :=
  match it with
  | .jobj fields =>
    match (fields.find? (fun p => p.1 == "index")).map (fun p => p.2) with
    | none => Except.ok 0
    | some (JVal.jnum n) => Except.ok n
    | some _ => Except.error "unorderable index value"
  | _ => .error "item is not an object"

/-- Stable ascending insertion by the extracted index (Python `sorted` is
stable). -/
def insertByIdx (x : Int × JVal) : List (Int × JVal) → List (Int × JVal)
  | [] => [x]
  | y :: ys => if x.1 < y.1 then x :: y :: ys else y :: insertByIdx x ys

def sortByIdx (l : List (Int × JVal)) : List (Int × JVal) :=
  l.foldl (fun acc x => insertByIdx x acc) []

/-- The extraction `item["embedding"]`; a missing key raises (KeyError). -/
def itemEmbedding (it : JVal) : Except String JVal :=
  match jGet it "embedding" with
  | some e => .ok e
  | none => .error "KeyError: embedding"

/-- Defensive parsing of the Doubao embedding response in
`DoubaoEmbeddings.embed_documents`: reject non-object responses, a missing
`data` field, and a `data` field that is neither a list nor a single object
(in particular a string error payload); wrap a single object into a list;
sort by the `index` field; extract each `embedding`. -/
def parseEmbedResponse (resp : JVal) : Except String (List JVal) :=
  match resp with
  | .jobj _ =>
    match jGet resp "data" with
    | none => .error "missing data field"
    | some raw =>
      let raw2 := match raw with
        | .jobj fields => JVal.jarr [JVal.jobj fields]
        | other => other
      match raw2 with
      | .jarr items =>
        match items.mapM (fun it => (itemIndex it).map (fun i => (i, it))) with
        | .error e => .error e
        | .ok keyed => (sortByIdx keyed).mapM (fun p => itemEmbedding p.2)
      | _ => .error "data field is not a list"
  | _ => .error "response is not an object"

/-- The FAISS store built by `FAISS.from_texts`: the chunk texts, their
metadata, and the vectors the embedding backend produced. -/
structure VectorStore where
  texts : List String
  metas : List ChunkMeta
  vectors : List JVal

/-- The module-level cache pair `(_VECTOR_STORE, _VECTOR_STORE_SIGNATURE)`. -/
structure CacheState where
  store : Option VectorStore
  sig : Option (Nat × Nat)

/-- The initial module state: both cache fields are `None`. -/
def initialCache : CacheState := ⟨none, none⟩

/-- Embedding of `KnowledgeService.invalidate_cache` (the body of its
lock-protected critical section). -/
def invalidateCache (_st : CacheState) : CacheState := ⟨none, none⟩

/-- The build part of `_get_or_build_vector_store` after a cache miss: check
the api key, gather texts, call the embedding backend, and update the cache
pair together (success sets both, failure clears both). -/
def buildStore (docs : List KnowledgeDocument) (apiKey : Option String)
    (embedCall : List String → Except String (List JVal)) (st : CacheState)
    (sig : Nat × Nat) : Option VectorStore × CacheState :=
  if apiKey.getD "" = "" then (none, st)
  else
    let tm := buildTexts docs
    if tm.isEmpty then (none, st)
    else
      match embedCall (tm.map Prod.fst) with
      | .ok vecs =>
        let vs : VectorStore := ⟨tm.map Prod.fst, tm.map Prod.snd, vecs⟩
        (some vs, ⟨some vs, some sig⟩)
      | .error _ => (none, ⟨none, none⟩)

/-- Embedding of `_get_or_build_vector_store`.  `embedCall` is the embedding
backend oracle (`embed_documents` behind `FAISS.from_texts`); `apiKey` is the
configured credential (`none` or `some ""` are both falsy). -/
def getOrBuildVectorStore (docs : List KnowledgeDocument) (apiKey : Option String)
    (embedCall : List String → Except String (List JVal)) (st : CacheState) :
    Option VectorStore × CacheState :=
  if docs.isEmpty then (none, st)
  else
    let sig := signatureFromDocs docs
    if st.store.isSome ∧ st.sig = some sig then (st.store, st)
    else buildStore docs apiKey embedCall st sig

/-- Embedding of `KnowledgeService.search`: build or reuse the store, return
`[]` whenever no store is available, otherwise the similarity hits produced by
the oracle `simFn`. -/
def searchKnowledge (docs : List KnowledgeDocument) (apiKey : Option String)
    (embedCall : List String → Except String (List JVal))
    (simFn : VectorStore → String → Nat → List (String × ChunkMeta))
    (st : CacheState) (query : String) (k : Nat) :
    List (String × ChunkMeta) × CacheState :=
  match getOrBuildVectorStore docs apiKey embedCall st with
  | (none, st2) => ([], st2)
  | (some vs, st2) => (simFn vs query k, st2)

/-- The cache-pair invariant: the store and the signature are either both unset
or both set. -/
def cacheConsistent (st : CacheState) : Prop := st.store.isSome = st.sig.isSome

/-! ### Data model: entities and data entries -/

/-- A `CustomerData` row: id, source kind, text content, open meta map, and a
creation timestamp used for sorting.  Meta values are modelled as strings. -/
structure Entry where
  id : Nat
  source_type : String
  content : String
  meta : List (String × String)
  created_at : Nat
deriving DecidableEq

/-- A customer record, reduced to its owned data entries. -/
structure Customer where
  data_entries : List Entry
deriving DecidableEq

/-- Python `meta.get(k)`. -/
def metaGet (m : List (String × String)) (k : String) : Option String :=
  (m.find? (fun p => p.1 == k)).map (fun p => p.2)

/-- Python `meta.get(k) or ""`: missing and `None` collapse to the empty
string, which is falsy. -/
def metaD (m : List (String × String)) (k : String) : String := (metaGet m k).getD ""

/-- The meta keys the code reserves for import bookkeeping. -/
def reservedMetaKeys : List String :=
  ["source_type", "source_name", "data_source_id", "_feishu_token", "_feishu_table_id"]

/-! ### Schema matcher (`_looks_like_internal_table_name`,
`_resolve_import_table_name`, `build_customer_import_schema`) -/

/-- Embedding of `_looks_like_internal_table_name`. -/
def looksLikeInternalTableName (name : String) : Bool :=
  let n := pyStrip name
  if n = "" then false
  else if pyStartsWith n "Bitable " && pyContains n "tbl" then true
  else if pyStartsWith n "tbl" || pyStartsWith n "sht" then true
  else false

/-- Python `alias_map.get(k)` on the alias mapping. -/
def aliasLookup (am : List (String × String)) (k : String) : Option String :=
  (am.find? (fun p => p.1 == k)).map (fun p => p.2)

/-- Embedding of the `config_id is None` rule of `_get_feishu_alias_map`:
without a data source config id the alias mapping is empty; otherwise the
environment `env` supplies the mapping built from the config's saved sheets. -/
def aliasMapFor (env : String → List (String × String)) (cid : Option String) :
    List (String × String) :=
  match cid with
  | none => []
  | some c => env c

/-- Embedding of `_resolve_import_table_name` over a given alias mapping. -/
def resolveImportTableName (am : List (String × String)) (m : List (String × String)) :
    String :=
  let sn := metaD m "source_name"
  if sn ≠ "" ∧ ¬ looksLikeInternalTableName sn then sn
  else
    let base :=
      if sn ≠ "" then sn
      else if metaD m "_feishu_table_id" ≠ "" then metaD m "_feishu_table_id"
      else if metaD m "_feishu_token" ≠ "" then metaD m "_feishu_token"
      else "导入记录"
    let token := metaD m "_feishu_token"
    if token = "" then base
    else
      let tid := metaD m "_feishu_table_id"
      let a1 := if tid ≠ "" then (aliasLookup am (token ++ ":" ++ tid)).getD "" else ""
      if a1 ≠ "" then a1
      else
        let a2 := (aliasLookup am token).getD ""
        if a2 ≠ "" then a2 else base

/-- The accumulated schema: table name → field set, field name → table set
(sets modelled as first-seen-ordered duplicate-free lists). -/
structure SchemaAcc where
  tables : List (String × List String)
  fieldToTables : List (String × List String)
deriving DecidableEq

/-- Add an element to a set modelled as a duplicate-free list. -/
def setAddStr (l : List String) (x : String) : List String :=
  if x ∈ l then l else l ++ [x]

/-- Python `tables.setdefault(k, fresh)`: create the key if absent. -/
def ensureTable (ts : List (String × List String)) (k : String) :
    List (String × List String) :=
  if ts.any (fun p => p.1 = k) then ts else ts ++ [(k, [])]

/-- Add a field to the field set of table `k`. -/
def addTableField (ts : List (String × List String)) (k f : String) :
    List (String × List String) :=
  ts.map (fun p => if p.1 = k then (p.1, setAddStr p.2 f) else p)

/-- Python `field_to_tables.setdefault(f, set()).add(t)`. -/
def addFieldTable (ft : List (String × List String)) (f t : String) :
    List (String × List String) :=
  if ft.any (fun p => p.1 = f) then
    ft.map (fun p => if p.1 = f then (p.1, setAddStr p.2 t) else p)
  else ft ++ [(f, [t])]

/-- The candidate schema field keys of one imported row: nonempty keys that are
neither reserved nor underscore-prefixed. -/
def schemaRowKeys (m : List (String × String)) : List String :=
  (m.map (fun p => p.1)).filter
    (fun k => k ≠ "" && !(reservedMetaKeys.contains k) && !(pyStartsWith k "_"))

/-- One iteration of the field loop of `build_customer_import_schema`. -/
def schemaFieldStep (tn : String) (a : SchemaAcc) (k : String) : SchemaAcc :=
  let ks := pyStrip k
  if ks = "" then a
  else ⟨addTableField a.tables tn ks, addFieldTable a.fieldToTables ks tn⟩

/-- One iteration of the entry loop of `build_customer_import_schema`. -/
def schemaStep (env : String → List (String × String)) (acc : SchemaAcc) (e : Entry) :
    SchemaAcc :=
  if pyStrip e.source_type ≠ "import_record" then acc
  else
    let tn := resolveImportTableName (aliasMapFor env (metaGet e.meta "data_source_id")) e.meta
    (schemaRowKeys e.meta).foldl (schemaFieldStep tn) ⟨ensureTable acc.tables tn, acc.fieldToTables⟩

/-- Stable ascending insertion by `created_at` (Python `sorted` is stable). -/
def insertAsc (x : Entry) : List Entry → List Entry
  | [] => [x]
  | y :: ys => if x.created_at < y.created_at then x :: y :: ys else y :: insertAsc x ys

def sortOldestFirst (l : List Entry) : List Entry :=
  l.foldl (fun acc x => insertAsc x acc) []

/-- Embedding of `build_customer_import_schema`. -/
def buildCustomerImportSchema (env : String → List (String × String))
    (cust : Option Customer) : SchemaAcc :=
  match cust with
  | none => ⟨[], []⟩
  | some c => (sortOldestFirst c.data_entries).foldl (schemaStep env) ⟨[], []⟩

/-- The `table_names` list of the returned schema (`list(tables.keys())`). -/
def schemaTableNames (s : SchemaAcc) : List String := s.tables.map (fun p => p.1)

/-! ### Retrieval selector (`retrieve_customer_data_context`,
`_select_relevant_data_entries`) -/

/-- Conversational-log source kinds excluded from the candidate set. -/
def isChatSourceType (st : String) : Bool :=
  pyStartsWith st "chat_history_" || pyStartsWith st "agent_chat_"

/-- Stable descending insertion by `created_at` (`sort(..., reverse=True)`). -/
def insertDesc (x : Entry) : List Entry → List Entry
  | [] => [x]
  | y :: ys => if y.created_at < x.created_at then x :: y :: ys else y :: insertDesc x ys

def sortNewestFirst (l : List Entry) : List Entry :=
  l.foldl (fun acc x => insertDesc x acc) []

/-- The candidate set: all non-chat entries, newest first. -/
def candidateEntries (c : Customer) : List Entry :=
  sortNewestFirst (c.data_entries.filter (fun e => !(isChatSourceType (pyStrip e.source_type))))

/-- The candidate window (`candidate_entries[:max_candidates]`). -/
def limitedCandidates (c : Customer) (maxCandidates : Nat) : List Entry :=
  (candidateEntries c).take maxCandidates

/-- The fixed profile/analysis trigger terms. -/
def profileKeywords : List String :=
  ["速览", "画像", "风险", "风险偏好", "推进", "成交", "时机", "阻碍",
   "建议", "下一步", "分析", "客户分析", "客户情况", "阶段判断", "评估"]

/-- The `include_all` test: does the stripped query contain a trigger term? -/
def isInfoOverride (q : String) : Bool := profileKeywords.any (fun k => pyContains q k)

/-- The deterministic keyword test for one candidate: the stored filename (or
original audio filename), lower-cased, or its extension-stripped stem of
length > 5, occurs in the lower-cased query. -/
def matchesKeyword (ql : String) (e : Entry) : Bool :=
  let filename := pyLower (metaD e.meta "filename")
  let orig := pyLower (metaD e.meta "original_audio_filename")
  if filename ≠ "" && pyContains ql filename then true
  else if orig ≠ "" && pyContains ql orig then true
  else if filename ≠ "" && decide (5 < (pyStem filename).length) && pyContains ql (pyStem filename) then true
  else if orig ≠ "" && decide (5 < (pyStem orig).length) && pyContains ql (pyStem orig) then true
  else false

/-- The keyword pass: hits collected in candidate order. -/
def queryKeywordHits (c : Customer) (q : String) (maxCandidates : Nat) : List Entry :=
  (limitedCandidates c maxCandidates).filter (matchesKeyword (pyLower q))

/-- Python `entry_map[i]` where `entry_map = {e.id: e}` (last entry wins on a
duplicate id). -/
def entryById (entries : List Entry) (i : Nat) : Option Entry :=
  entries.reverse.find? (fun e => e.id == i)

/-- Embedding of `_select_relevant_data_entries`: the model call and JSON
parsing are the oracle `llmOutcome` (`.error` models any exception or parse
failure, which the function catches and turns into `[]`; `.ok ids` the parsed
`relevant_ids`); returned ids are mapped through the entry map, unknown ids
are dropped. -/
def selectRelevantDataEntries (llmOutcome : Except Unit (List Nat))
    (entries : List Entry) : List Entry :=
  if entries.isEmpty then []
  else
    match llmOutcome with
    | .error _ => []
    | .ok ids => ids.filterMap (entryById entries)

/-- The merge loop `for e in llm_selected: if e not in selected_entries:
selected_entries.append(e)` starting from the keyword hits. -/
def addNewEntries (acc : List Entry) : List Entry → List Entry
  | [] => acc
  | e :: es => if e ∈ acc then addNewEntries acc es else addNewEntries (acc ++ [e]) es

/-- The id-dedup loop with its `seen_ids` set. -/
def dedupByIdAux (seen : List Nat) : List Entry → List Entry
  | [] => []
  | e :: es => if e.id ∈ seen then dedupByIdAux seen es else e :: dedupByIdAux (e.id :: seen) es

def dedupById (l : List Entry) : List Entry := dedupByIdAux [] l

/-- The merged, deduplicated selection (`unique_entries` before the cap). -/
def mergedSelection (c : Customer) (q : String) (llmOutcome : Except Unit (List Nat))
    (maxCandidates : Nat) : List Entry :=
  dedupById (addNewEntries (queryKeywordHits c q maxCandidates)
    (selectRelevantDataEntries llmOutcome (limitedCandidates c maxCandidates)))

/-- One emitted block of the returned context, before rendering. -/
structure Block where
  label : String
  kind : String
  content : String
deriving DecidableEq

/-- The truncation marker appended to over-long content. -/
def truncMarker : String := "\n（内容过长已截断）"

/-- The 50,000-character cap applied to every emitted block's content. -/
def capContent (s : String) : String :=
  if 50000 < s.length then pyTake s 50000 ++ truncMarker else s

/-- The non-reserved meta pairs rendered for an imported row. -/
def importContentPairs (m : List (String × String)) : List (String × String) :=
  m.filter (fun p => !(reservedMetaKeys.contains p.1))

/-- The row line of one `import_record` entry in the override path: the joined
non-reserved meta pairs, falling back to the entry content. -/
def importLineOf (e : Entry) : String :=
  let cd := importContentPairs e.meta
  if cd.isEmpty then e.content
  else joinSep " | " (cd.map (fun p => p.1 ++ ":" ++ p.2))

/-- The raw grouping key of the override path: `source_name`, else the feishu
table id, else the feishu token, else the default label. -/
def rawImportSourceName (m : List (String × String)) : String :=
  if metaD m "source_name" ≠ "" then metaD m "source_name"
  else if metaD m "_feishu_table_id" ≠ "" then metaD m "_feishu_table_id"
  else if metaD m "_feishu_token" ≠ "" then metaD m "_feishu_token"
  else "导入记录"

/-- Append a line to an insertion-ordered group map (`dict.setdefault` plus
`append`). -/
def addGroupLine (gs : List (String × List String)) (key line : String) :
    List (String × List String) :=
  match gs with
  | [] => [(key, [line])]
  | (k, ls) :: rest =>
    if k = key then (k, ls ++ [line]) :: rest else (k, ls) :: addGroupLine rest key line

/-- One iteration of the override loop over `reversed(candidate_entries)`. -/
def overrideStep (acc : List (String × List String) × List Entry) (e : Entry) :
    List (String × List String) × List Entry :=
  if pyStrip e.source_type = "import_record" then
    let line := importLineOf e
    if line = "" then acc
    else (addGroupLine acc.1 (rawImportSourceName e.meta) line, acc.2)
  else (acc.1, acc.2 ++ [e])

/-- The grouped imports and the remaining entries of the override path
(iterating oldest first, as the code reverses the newest-first list). -/
def overrideGroups (cands : List Entry) : List (String × List String) × List Entry :=
  cands.reverse.foldl overrideStep ([], [])

/-- The block emitted for one grouped import table. -/
def importGroupBlock (g : String × List String) : Block :=
  ⟨g.1, "import_record", capContent (joinSep "\n" g.2)⟩

/-- The block emitted for a non-import entry in the override path. -/
def overrideOtherBlock (e : Entry) : Block :=
  let label :=
    if metaD e.meta "filename" ≠ "" then metaD e.meta "filename"
    else if metaD e.meta "original_audio_filename" ≠ "" then metaD e.meta "original_audio_filename"
    else if metaD e.meta "source_name" ≠ "" then metaD e.meta "source_name"
    else "No Name"
  ⟨label, e.source_type, capContent e.content⟩

/-- All blocks of the profile-query override path. -/
def overrideBlocks (cands : List Entry) : List Block :=
  (overrideGroups cands).1.map importGroupBlock ++ (overrideGroups cands).2.map overrideOtherBlock

/-- The display name of a selected entry in the normal path. -/
def entryDisplayName (e : Entry) : String :=
  if metaD e.meta "filename" ≠ "" then metaD e.meta "filename"
  else if metaD e.meta "original_audio_filename" ≠ "" then metaD e.meta "original_audio_filename"
  else if metaD e.meta "source_name" ≠ "" then metaD e.meta "source_name"
  else "导入记录"

/-- The content preview of a selected entry in the normal path. -/
def entryPreview (e : Entry) : String :=
  if e.source_type = "import_record" then
    let cd := importContentPairs e.meta
    if cd.isEmpty then e.content
    else joinSep " | " (cd.map (fun p => p.1 ++ ":" ++ p.2))
  else e.content

/-- The block emitted for one selected entry in the normal path. -/
def selectedEntryBlock (e : Entry) : Block :=
  ⟨entryDisplayName e, e.source_type, capContent (entryPreview e)⟩

/-- The fallback eligibility test: a filename-ish meta key, a recognized
document/audio source-kind prefix, or (for profile queries) an import record. -/
def isFallbackEntry (includeImports : Bool) (e : Entry) : Bool :=
  if metaD e.meta "filename" ≠ "" || metaD e.meta "original_audio_filename" ≠ "" then true
  else
    let st := pyStrip e.source_type
    if pyStartsWith st "document_" || pyStartsWith st "audio_" || pyStartsWith st "audio_transcription" then true
    else includeImports && st = "import_record"

/-- The fallback candidates considered when neither pass selected anything. -/
def fallbackCandidates (c : Customer) (q : String) (maxCandidates : Nat) : List Entry :=
  (limitedCandidates c maxCandidates).filter (isFallbackEntry (isInfoOverride q))

/-- The blocks of the normal (non-override) path: the merged selection capped
at `max_results`, or the fallback when the merge is empty. -/
def selectionBlocks (c : Customer) (q : String) (llmOutcome : Except Unit (List Nat))
    (maxCandidates maxResults : Nat) : List Block :=
  if (mergedSelection c q llmOutcome maxCandidates).isEmpty then
    ((fallbackCandidates c q maxCandidates).take maxResults).map selectedEntryBlock
  else ((mergedSelection c q llmOutcome maxCandidates).take maxResults).map selectedEntryBlock

/-- Embedding of `retrieve_customer_data_context`, returning the emitted blocks
in order.  `fault` models an exception escaping inside the big `try` block
(which the code catches, degrading to an empty result); `llmOutcome` is the
model-assisted pass oracle. -/
def retrieveBlocks (cust : Option Customer) (query : String)
    (llmOutcome : Except Unit (List Nat)) (fault : Bool)
    (maxCandidates maxResults : Nat) : List Block :=
  match cust with
  | none => []
  | some c =>
    if pyStrip query = "" then []
    else if fault then []
    else if isInfoOverride (pyStrip query) then overrideBlocks (candidateEntries c)
    else selectionBlocks c (pyStrip query) llmOutcome maxCandidates maxResults

/-- The rendering of one block, exactly as the f-string in the code. -/
def renderBlock (b : Block) : String :=
  "【已检索数据：" ++ b.label ++ "（类型：" ++ b.kind ++ "）】\n" ++ b.content ++ "\n----------------\n"

/-- The returned context string of `retrieve_customer_data_context`. -/
def retrieveCustomerDataContext (cust : Option Customer) (query : String)
    (llmOutcome : Except Unit (List Nat)) (fault : Bool)
    (maxCandidates maxResults : Nat) : String :=
  String.join ((retrieveBlocks cust query llmOutcome fault maxCandidates maxResults).map renderBlock)

/-! ### Concrete instances used by counterexamples and witnesses -/

/-- Four candidate entries whose filenames all occur in one query. -/
def c1eA : Entry := ⟨1, "document_parse", "contentA", [("filename", "alpha01.txt")], 4⟩

def c1eB : Entry := ⟨2, "document_parse", "contentB", [("filename", "beta01.txt")], 3⟩

def c1eC : Entry := ⟨3, "document_parse", "contentC", [("filename", "gamma01.txt")], 2⟩

def c1eD : Entry := ⟨4, "document_parse", "contentD", [("filename", "delta01.txt")], 1⟩

def c1customer : Customer := ⟨[c1eD, c1eB, c1eA, c1eC]⟩

def c1query : String := "please alpha01.txt beta01.txt gamma01.txt delta01.txt"

/-- An imported row whose raw source name is an internal table token while an
alias is configured for its base token. -/
def c2meta : List (String × String) :=
  [("source_name", "tblXXXX"), ("_feishu_token", "bascnB1"), ("data_source_id", "7"),
   ("资产规模", "100万")]

def c2entry : Entry := ⟨11, "import_record", "", c2meta, 5⟩

def c2customer : Customer := ⟨[c2entry]⟩

def c2env : String → List (String × String) :=
  fun c => if c = "7" then [("bascnB1", "Q3 Assets")] else []

/-- An entry whose content exceeds the 50,000-character cap. -/
def bigText : String := String.mk (List.replicate 50001 'a')

def c4entry : Entry := ⟨21, "document_parse", bigText, [("filename", "bigfile.txt")], 1⟩

def c4customer : Customer := ⟨[c4entry]⟩

/-- A small entry for the witness of the cap theorem. -/
def c4small : Entry := ⟨22, "document_parse", "short text", [("filename", "small.txt")], 1⟩

def c4smallCustomer : Customer := ⟨[c4small]⟩

/-- A model response longer than the 4,000-character summary cap. -/
def c9resp : String := String.mk (List.replicate 4002 'a')

/-! ## Theorems -/

theorem pyLower_user : pyLower "user" = "user" := rfl

theorem pyLower_ai : pyLower "ai" = "ai" := rfl

theorem mem_normalizedHistory_role (h : List HItem) (m : NormMsg)
    (hm : m ∈ normalizedHistory h) : m.role = "user" ∨ m.role = "ai" := by
  unfold normalizedHistory at hm
  rw [List.mem_filterMap] at hm
  obtain ⟨it, _, hq⟩ := hm
  unfold qualifyTurn at hq
  cases it with
  | notDict => simp at hq
  | item role content =>
    simp only at hq
    split at hq
    · cases content with
      | none => simp at hq
      | some c =>
        rw [Option.some_inj] at hq
        subst hq
        by_cases hr : pyLower (role.getD "") = "user"
        · left; simp [hr]
        · right; simp [hr]
    · simp at hq

theorem ai_ne_user : ¬ ("ai" : String) = "user" := by decide

theorem historyDictToMessage_eq_conv (m : NormMsg) (hm : m.role = "user" ∨ m.role = "ai") :
    historyDictToMessage m = some (convMsg m) := by
  rcases hm with h | h <;>
    simp [historyDictToMessage, convMsg, h, pyLower_user, pyLower_ai]

theorem filterMap_historyDictToMessage (l : List NormMsg)
    (hl : ∀ m ∈ l, m.role = "user" ∨ m.role = "ai") :
    l.filterMap historyDictToMessage = l.map convMsg := by
  induction l with
  | nil => rfl
  | cons x xs ih =>
    rw [List.filterMap_cons, historyDictToMessage_eq_conv x (hl x (by simp)), List.map_cons]
    rw [ih (fun m hm => hl m (by simp [hm]))]

/-- C3: history compression is bounded.  If the number of qualifying turns is
at most `keep_last`, the output is exactly those turns converted one-to-one
(identity case: output length equals input length); otherwise it is exactly
one synthetic leading summary message followed by the last `keep_last` turns
converted one-to-one, hence `keep_last + 1` messages in total. -/
theorem C3_compress_history_bounded (h : List HItem) (resp : Except Unit String)
    (keepLast : Nat) (hk : 1 ≤ keepLast) :
    ((normalizedHistory h).length ≤ keepLast →
      compressHistoryMessages h resp keepLast = (normalizedHistory h).map convMsg) ∧
    (keepLast < (normalizedHistory h).length →
      compressHistoryMessages h resp keepLast =
        summaryLeadMessage (summarizeHistory (pySliceDropLast (normalizedHistory h) keepLast) resp)
          :: (pySliceLast (normalizedHistory h) keepLast).map convMsg ∧
      (pySliceLast (normalizedHistory h) keepLast).length = keepLast ∧
      (compressHistoryMessages h resp keepLast).length = keepLast + 1) := by
  have hroles : ∀ m ∈ normalizedHistory h, m.role = "user" ∨ m.role = "ai" :=
    fun m hm => mem_normalizedHistory_role h m hm
  constructor
  · intro hle
    unfold compressHistoryMessages
    by_cases hh : h.isEmpty
    · rw [if_pos hh]
      have : h = [] := List.isEmpty_iff.mp hh
      subst this
      rfl
    · rw [if_neg hh]
      by_cases hn : (normalizedHistory h).isEmpty
      · rw [if_pos hn]
        rw [List.isEmpty_iff.mp hn]
        rfl
      · rw [if_neg hn, if_pos hle]
        exact filterMap_historyDictToMessage _ hroles
  · intro hlt
    have hh : h.isEmpty = false := by
      cases h with
      | nil =>
        exfalso
        simp only [normalizedHistory, List.filterMap_nil, List.length_nil] at hlt
        omega
      | cons a l => rfl
    have hn : (normalizedHistory h).isEmpty = false := by
      cases hcase : normalizedHistory h with
      | nil =>
        exfalso
        rw [hcase] at hlt
        simp only [List.length_nil] at hlt
        omega
      | cons a l => rfl
    have hrlen : (pySliceLast (normalizedHistory h) keepLast).length = keepLast := by
      unfold pySliceLast
      rw [if_neg (by omega)]
      rw [List.length_drop]
      omega
    have hsub : ∀ m ∈ pySliceLast (normalizedHistory h) keepLast,
        m.role = "user" ∨ m.role = "ai" := by
      intro m hm
      apply hroles
      unfold pySliceLast at hm
      split at hm
      · exact hm
      · exact List.drop_subset _ _ hm
    have hout : compressHistoryMessages h resp keepLast =
        summaryLeadMessage (summarizeHistory (pySliceDropLast (normalizedHistory h) keepLast) resp)
          :: (pySliceLast (normalizedHistory h) keepLast).map convMsg := by
      unfold compressHistoryMessages
      rw [if_neg (by simp [hh]), if_neg (by simp [hn]), if_neg (by omega)]
      show summaryLeadMessage (summarizeHistory (pySliceDropLast (normalizedHistory h) keepLast) resp)
          :: (pySliceLast (normalizedHistory h) keepLast).filterMap historyDictToMessage = _
      rw [filterMap_historyDictToMessage _ hsub]
    refine ⟨hout, hrlen, ?_⟩
    rw [hout]
    simp [hrlen]

/-- C9 counterexample: a successful summarization response of 4,002 characters
is consumed as a summary of 4,001 characters — more than the claimed hard cap
of 4,000. -/
theorem capSummary_length (s : String) : (capSummary s).length ≤ 4001 := by
  unfold capSummary
  by_cases hbig : 4000 < s.length
  · rw [if_pos hbig, strLength_append, pyTake_length]
    have : ("…" : String).length = 1 := rfl
    omega
  · rw [if_neg hbig]
    omega

theorem C9_counterexample :
    (summarizeHistory [⟨"user", "hi"⟩] (Except.ok c9resp)).length = 4001 ∧
    4000 < (summarizeHistory [⟨"user", "hi"⟩] (Except.ok c9resp)).length := by
  have hd : ∀ (n : Nat), (List.replicate n 'a').dropWhile Char.isWhitespace = List.replicate n 'a' := by
    intro n
    induction n with
    | zero => rfl
    | succ k ih => rw [List.replicate_succ, List.dropWhile_cons]; simp [ih]
  have hstrip : pyStrip c9resp = c9resp := by
    unfold pyStrip c9resp
    rw [hd, List.reverse_replicate, hd, List.reverse_replicate]
  have hlen : c9resp.length = 4002 := by
    unfold c9resp
    rw [strLength_mk, List.length_replicate]
  have hne : ¬ c9resp = "" := by
    intro hcon
    rw [hcon] at hlen
    simp at hlen
  have hmain : summarizeHistory [⟨"user", "hi"⟩] (Except.ok c9resp) =
      pyTake c9resp 4000 ++ "…" := by
    unfold summarizeHistory
    rw [if_neg (by decide), if_neg (by decide)]
    rw [show respText (Except.ok c9resp) = pyStrip c9resp from rfl, hstrip]
    unfold summaryCore
    rw [if_neg hne]
    unfold capSummary
    rw [if_pos (by omega)]
  rw [hmain, strLength_append, pyTake_length, hlen]
  have : ("…" : String).length = 1 := rfl
  omega

/-- C9 (amended): when the summarization call fails or yields empty output the
compressor substitutes the generic placeholder stating how many older messages
were omitted; the summary consumed downstream never exceeds 4,000 characters
plus the one-character ellipsis appended on truncation (4,001 total). -/
theorem C9_placeholder_and_cap (h : List NormMsg) (resp resp2 : Except Unit String) :
    ((h.isEmpty = false) → joinSep "\n" (h.filterMap summaryLine) ≠ "" →
      (resp = Except.error () ∨ (∃ s, resp = Except.ok s ∧ pyStrip s = "")) →
      (placeholderSummary h.length).length ≤ 4000 →
      summarizeHistory h resp = placeholderSummary h.length) ∧
    (summarizeHistory h resp2).length ≤ 4001 := by
  constructor
  · intro hne hraw hfail hsmall
    unfold summarizeHistory
    rw [if_neg (by simp [hne]), if_neg hraw]
    have hs0 : respText resp = "" := by
      rcases hfail with hf | ⟨s, hf, hs⟩
      · rw [hf]; rfl
      · rw [hf]; exact hs
    rw [hs0]
    unfold summaryCore
    rw [if_pos rfl]
    unfold capSummary
    rw [if_neg (by omega)]
  · unfold summarizeHistory
    by_cases hne : h.isEmpty
    · rw [if_pos hne]; simp
    · rw [if_neg hne]
      by_cases hraw : joinSep "\n" (h.filterMap summaryLine) = ""
      · rw [if_pos hraw]; simp
      · rw [if_neg hraw]
        exact capSummary_length _

/-- Witness for C9: one short user turn, a failing model call; the placeholder
names the single omitted message and the cap holds. -/
theorem C9_placeholder_and_cap_witness :
    summarizeHistory [⟨"user", "嗯"⟩] (Except.error ()) = placeholderSummary 1 ∧
    (summarizeHistory [⟨"user", "嗯"⟩] (Except.ok "ok")).length ≤ 4001 := by
  constructor
  · exact (C9_placeholder_and_cap [⟨"user", "嗯"⟩] (Except.error ()) (Except.ok "ok")).1
      (by decide) (by decide) (Or.inl rfl) (by decide)
  · exact (C9_placeholder_and_cap [⟨"user", "嗯"⟩] (Except.error ()) (Except.ok "ok")).2

/-- Witness for C3: 45 qualifying turns with `keep_last = 30` yield exactly
31 messages. -/
theorem C3_compress_history_bounded_witness :
    30 < (normalizedHistory (List.replicate 45 (HItem.item (some "user") (some "hi")))).length ∧
    (compressHistoryMessages (List.replicate 45 (HItem.item (some "user") (some "hi")))
      (Except.error ()) 30).length = 31 := by
  refine ⟨by decide, ?_⟩
  exact ((C3_compress_history_bounded (List.replicate 45 (HItem.item (some "user") (some "hi")))
    (Except.error ()) 30 (by decide)).2 (by decide)).2.2

theorem searchKnowledge_fst_of_none (docs : List KnowledgeDocument) (apiKey : Option String)
    (embedCall : List String → Except String (List JVal))
    (simFn : VectorStore → String → Nat → List (String × ChunkMeta))
    (st : CacheState) (q : String) (k : Nat)
    (h : (getOrBuildVectorStore docs apiKey embedCall st).1 = none) :
    (searchKnowledge docs apiKey embedCall simFn st q k).1 = [] := by
  unfold searchKnowledge
  rcases hg : getOrBuildVectorStore docs apiKey embedCall st with ⟨a, b⟩
  rw [hg] at h
  simp only at h
  subst h
  rfl

theorem searchKnowledge_embed_fail (docs : List KnowledgeDocument) (apiKey : Option String)
    (embedCall : List String → Except String (List JVal))
    (simFn : VectorStore → String → Nat → List (String × ChunkMeta))
    (q : String) (k : Nat)
    (hfail : ∀ ts, ∃ msg, embedCall ts = Except.error msg) :
    (searchKnowledge docs apiKey embedCall simFn initialCache q k).1 = [] := by
  apply searchKnowledge_fst_of_none
  simp only [getOrBuildVectorStore]
  by_cases hd : docs.isEmpty
  · rw [if_pos hd]
  · rw [if_neg hd, if_neg (by simp [initialCache])]
    simp only [buildStore]
    by_cases hkey : apiKey.getD "" = ""
    · rw [if_pos hkey]
    · rw [if_neg hkey]
      by_cases htm : (buildTexts docs).isEmpty
      · rw [if_pos htm]
      · rw [if_neg htm]
        obtain ⟨msg, hmsg⟩ := hfail ((buildTexts docs).map Prod.fst)
        rw [hmsg]

/-- C5: `KnowledgeService.search` returns the empty list in every degraded
state: no knowledge documents, no embedding credential configured (with a cold
cache), any failing embedding build, and in particular an embedding response
whose `data` field is a string error payload instead of a list. -/
theorem C5_search_degraded (docs : List KnowledgeDocument) (apiKey : Option String)
    (embedCall : List String → Except String (List JVal))
    (simFn : VectorStore → String → Nat → List (String × ChunkMeta))
    (st : CacheState) (q : String) (k : Nat) :
    (searchKnowledge [] apiKey embedCall simFn st q k).1 = [] ∧
    (apiKey.getD "" = "" →
      (searchKnowledge docs apiKey embedCall simFn initialCache q k).1 = []) ∧
    ((∀ ts, ∃ msg, embedCall ts = Except.error msg) →
      (searchKnowledge docs apiKey embedCall simFn initialCache q k).1 = []) ∧
    (∀ s, (searchKnowledge docs apiKey
        (fun _ => parseEmbedResponse (JVal.jobj [("data", JVal.jstr s)]))
        simFn initialCache q k).1 = []) := by
  refine ⟨?_, ?_, ?_, ?_⟩
  · apply searchKnowledge_fst_of_none
    simp [getOrBuildVectorStore]
  · intro hkey
    apply searchKnowledge_fst_of_none
    simp only [getOrBuildVectorStore]
    by_cases hd : docs.isEmpty
    · rw [if_pos hd]
    · rw [if_neg hd, if_neg (by simp [initialCache])]
      simp only [buildStore]
      rw [if_pos hkey]
  · intro hfail
    exact searchKnowledge_embed_fail docs apiKey embedCall simFn q k hfail
  · intro s
    apply searchKnowledge_embed_fail
    intro ts
    exact ⟨"data field is not a list", rfl⟩

/-- Witness for C5 at concrete inputs: zero documents, a missing credential,
and a string `data` payload each give an empty search result. -/
theorem C5_search_degraded_witness :
    (searchKnowledge [] (some "k") (fun _ => Except.ok []) (fun _ _ _ => [])
      initialCache "q" 3).1 = [] ∧
    (searchKnowledge [⟨1, "T", "some knowledge content", "", "src"⟩] none
      (fun _ => Except.ok []) (fun _ _ _ => []) initialCache "q" 3).1 = [] ∧
    (searchKnowledge [⟨1, "T", "some knowledge content", "", "src"⟩] (some "k")
      (fun _ => parseEmbedResponse (JVal.jobj [("data", JVal.jstr "quota exceeded")]))
      (fun _ _ _ => []) initialCache "q" 3).1 = [] := by
  refine ⟨?_, ?_, ?_⟩
  · exact (C5_search_degraded [] (some "k") (fun _ => Except.ok []) (fun _ _ _ => [])
      initialCache "q" 3).1
  · exact (C5_search_degraded [⟨1, "T", "some knowledge content", "", "src"⟩] none
      (fun _ => Except.ok []) (fun _ _ _ => []) initialCache "q" 3).2.1 rfl
  · exact (C5_search_degraded [⟨1, "T", "some knowledge content", "", "src"⟩] (some "k")
      (fun _ => Except.ok []) (fun _ _ _ => []) initialCache "q" 3).2.2.2 "quota exceeded"

theorem searchKnowledge_snd (docs : List KnowledgeDocument) (apiKey : Option String)
    (embedCall : List String → Except String (List JVal))
    (simFn : VectorStore → String → Nat → List (String × ChunkMeta))
    (st : CacheState) (q : String) (k : Nat) :
    (searchKnowledge docs apiKey embedCall simFn st q k).2 =
      (getOrBuildVectorStore docs apiKey embedCall st).2 := by
  unfold searchKnowledge
  rcases hg : getOrBuildVectorStore docs apiKey embedCall st with ⟨a, b⟩
  cases a <;> rfl

/-- C10: the module-level cache keeps its two fields consistent.  From any
consistent state, the initial state, `invalidate_cache`, a cache hit, a failed
build, and a successful build all leave the pair (store, signature) either
both unset or both set; `search` preserves the invariant through its
read-or-rebuild step. -/
theorem C10_cache_pair_consistent (docs : List KnowledgeDocument) (apiKey : Option String)
    (embedCall : List String → Except String (List JVal))
    (simFn : VectorStore → String → Nat → List (String × ChunkMeta))
    (st : CacheState) (q : String) (k : Nat)
    (hst : cacheConsistent st) :
    cacheConsistent initialCache ∧
    cacheConsistent (invalidateCache st) ∧
    cacheConsistent ((getOrBuildVectorStore docs apiKey embedCall st).2) ∧
    cacheConsistent ((searchKnowledge docs apiKey embedCall simFn st q k).2) := by
  have h3 : cacheConsistent ((getOrBuildVectorStore docs apiKey embedCall st).2) := by
    simp only [getOrBuildVectorStore]
    by_cases hd : docs.isEmpty
    · rw [if_pos hd]; exact hst
    · rw [if_neg hd]
      by_cases hhit : st.store.isSome ∧ st.sig = some (signatureFromDocs docs)
      · rw [if_pos hhit]; exact hst
      · rw [if_neg hhit]
        simp only [buildStore]
        by_cases hkey : apiKey.getD "" = ""
        · rw [if_pos hkey]; exact hst
        · rw [if_neg hkey]
          by_cases htm : (buildTexts docs).isEmpty
          · rw [if_pos htm]; exact hst
          · rw [if_neg htm]
            cases embedCall ((buildTexts docs).map Prod.fst) with
            | ok vecs => rfl
            | error e => rfl
  exact ⟨rfl, rfl, h3, by rw [searchKnowledge_snd]; exact h3⟩

/-- Witness for C10 at a concrete consistent state. -/
theorem C10_cache_pair_consistent_witness :
    cacheConsistent ((getOrBuildVectorStore [⟨1, "T", "text", "", "s"⟩] (some "k")
      (fun _ => Except.ok []) initialCache).2) := by
  exact (C10_cache_pair_consistent [⟨1, "T", "text", "", "s"⟩] (some "k")
    (fun _ => Except.ok []) (fun _ _ _ => []) initialCache "q" 3 rfl).2.2.1

theorem selectRelevant_error_eq (l : List Entry) :
    selectRelevantDataEntries (Except.error ()) l = selectRelevantDataEntries (Except.ok []) l := by
  unfold selectRelevantDataEntries
  by_cases hl : l.isEmpty
  · rw [if_pos hl, if_pos hl]
  · rw [if_neg hl, if_neg hl]
    rfl

/-- C8: `retrieve_customer_data_context` degrades instead of raising: a missing
entity returns the empty string, a blank query returns the empty string, an
exception inside the selection `try` block returns the empty string, and an
exception in the model-assisted pass is equivalent to the model returning an
empty id list. -/
theorem C8_retrieve_degrades (c : Customer) (query : String)
    (o : Except Unit (List Nat)) (fault : Bool) (mc mr : Nat) :
    retrieveCustomerDataContext none query o fault mc mr = "" ∧
    (pyStrip query = "" → retrieveCustomerDataContext (some c) query o fault mc mr = "") ∧
    retrieveCustomerDataContext (some c) query o true mc mr = "" ∧
    retrieveCustomerDataContext (some c) query (Except.error ()) fault mc mr =
      retrieveCustomerDataContext (some c) query (Except.ok []) fault mc mr := by
  have hjoin : String.join [] = "" := rfl
  refine ⟨rfl, ?_, ?_, ?_⟩
  · intro hq
    simp [retrieveCustomerDataContext, retrieveBlocks, hq, hjoin]
  · by_cases hq : pyStrip query = ""
    · simp [retrieveCustomerDataContext, retrieveBlocks, hq, hjoin]
    · simp [retrieveCustomerDataContext, retrieveBlocks, hq, hjoin]
  · have hm : mergedSelection c (pyStrip query) (Except.error ()) mc =
        mergedSelection c (pyStrip query) (Except.ok []) mc := by
      unfold mergedSelection
      rw [selectRelevant_error_eq]
    simp only [retrieveCustomerDataContext, retrieveBlocks, selectionBlocks, hm]

/-- Witness for C8 at concrete inputs. -/
theorem C8_retrieve_degrades_witness :
    retrieveCustomerDataContext (some ⟨[]⟩) "   " (Except.ok []) false 30 3 = "" ∧
    retrieveCustomerDataContext (some ⟨[⟨1, "note", "text", [], 1⟩]⟩) "hello"
      (Except.error ()) false 30 3 =
    retrieveCustomerDataContext (some ⟨[⟨1, "note", "text", [], 1⟩]⟩) "hello"
      (Except.ok []) false 30 3 := by
  constructor
  · exact (C8_retrieve_degrades ⟨[]⟩ "   " (Except.ok []) false 30 3).2.1 (by decide)
  · exact (C8_retrieve_degrades ⟨[⟨1, "note", "text", [], 1⟩]⟩ "hello"
      (Except.ok []) false 30 3).2.2.2

theorem dedupByIdAux_cons (s : List Nat) (e : Entry) (es : List Entry) :
    dedupByIdAux s (e :: es) =
      if e.id ∈ s then dedupByIdAux s es else e :: dedupByIdAux (e.id :: s) es := rfl

theorem dedupByIdAux_congr (l : List Entry) (s s2 : List Nat)
    (h : ∀ x, x ∈ s ↔ x ∈ s2) : dedupByIdAux s l = dedupByIdAux s2 l := by
  induction l generalizing s s2 with
  | nil => rfl
  | cons e es ih =>
    unfold dedupByIdAux
    by_cases he : e.id ∈ s
    · rw [if_pos he, if_pos ((h e.id).mp he)]
      exact ih s s2 h
    · rw [if_neg he, if_neg (fun hc => he ((h e.id).mpr hc))]
      rw [ih (e.id :: s) (e.id :: s2) (by intro x; simp [h x])]

theorem dedupByIdAux_append (a b : List Entry) (s : List Nat) :
    dedupByIdAux s (a ++ b) =
      dedupByIdAux s a ++ dedupByIdAux (a.map Entry.id ++ s) b := by
  induction a generalizing s with
  | nil => simp [dedupByIdAux]
  | cons e es ih =>
    rw [List.cons_append, dedupByIdAux_cons, dedupByIdAux_cons]
    by_cases he : e.id ∈ s
    · rw [if_pos he, if_pos he, ih s]
      congr 1
      apply dedupByIdAux_congr
      intro x
      simp only [List.map_cons, List.cons_append, List.mem_cons, List.mem_append]
      constructor
      · tauto
      · intro hx
        rcases hx with hx | hx
        · subst hx; exact Or.inr he
        · tauto
    · rw [if_neg he, if_neg he, ih (e.id :: s), List.cons_append]
      congr 2
      apply dedupByIdAux_congr
      intro x
      simp only [List.map_cons, List.cons_append, List.mem_cons, List.mem_append]
      tauto

theorem dedupByIdAux_sublist (s : List Nat) (l : List Entry) :
    (dedupByIdAux s l).Sublist l := by
  induction l generalizing s with
  | nil => exact List.Sublist.refl []
  | cons e es ih =>
    unfold dedupByIdAux
    by_cases he : e.id ∈ s
    · rw [if_pos he]
      exact (ih s).cons e
    · rw [if_neg he]
      exact (ih (e.id :: s)).cons₂ e

theorem mem_dedupByIdAux (s : List Nat) (l : List Entry) (e : Entry)
    (he : e ∈ dedupByIdAux s l) : e ∈ l ∧ e.id ∉ s := by
  induction l generalizing s with
  | nil => simp [dedupByIdAux] at he
  | cons f fs ih =>
    unfold dedupByIdAux at he
    by_cases hf : f.id ∈ s
    · rw [if_pos hf] at he
      obtain ⟨h1, h2⟩ := ih s he
      exact ⟨List.mem_cons_of_mem f h1, h2⟩
    · rw [if_neg hf] at he
      rcases List.mem_cons.mp he with h | h
      · subst h
        exact ⟨List.mem_cons_self _ _, hf⟩
      · obtain ⟨h1, h2⟩ := ih (f.id :: s) h
        exact ⟨List.mem_cons_of_mem f h1, fun hc => h2 (List.mem_cons_of_mem _ hc)⟩

theorem dedupByIdAux_ids_nodup (s : List Nat) (l : List Entry) :
    ((dedupByIdAux s l).map Entry.id).Nodup := by
  induction l generalizing s with
  | nil => simp [dedupByIdAux]
  | cons e es ih =>
    unfold dedupByIdAux
    by_cases he : e.id ∈ s
    · rw [if_pos he]
      exact ih s
    · rw [if_neg he]
      rw [List.map_cons]
      refine List.Nodup.cons ?_ (ih (e.id :: s))
      intro hc
      obtain ⟨x, hx, hxid⟩ := List.mem_map.mp hc
      have := (mem_dedupByIdAux _ _ _ hx).2
      exact this (by rw [hxid]; exact List.mem_cons_self _ _)

theorem addNewEntries_decomp (llm acc : List Entry) :
    ∃ t, addNewEntries acc llm = acc ++ t ∧ t.Sublist llm ∧ ∀ e ∈ t, e ∉ acc := by
  induction llm generalizing acc with
  | nil => exact ⟨[], by simp [addNewEntries], List.Sublist.refl [], by simp⟩
  | cons e es ih =>
    unfold addNewEntries
    by_cases he : e ∈ acc
    · rw [if_pos he]
      obtain ⟨t, h1, h2, h3⟩ := ih acc
      exact ⟨t, h1, h2.cons e, h3⟩
    · rw [if_neg he]
      obtain ⟨t, h1, h2, h3⟩ := ih (acc ++ [e])
      refine ⟨e :: t, ?_, h2.cons₂ e, ?_⟩
      · rw [h1, List.append_assoc]
        rfl
      · intro x hx
        rcases List.mem_cons.mp hx with h | h
        · subst h; exact he
        · intro hc
          exact h3 x h (List.mem_append_left _ hc)

/-- C6: the merged selector output contains no two entries with the same id,
and it is the deduplicated keyword hits followed by model-only hits (entries
of the model selection whose id did not occur among the keyword hits), each
group preserving its first-seen order. -/
theorem C6_merge_dedup_order (kw llm : List Entry) :
    ((dedupById (addNewEntries kw llm)).map Entry.id).Nodup ∧
    ∃ ms, dedupById (addNewEntries kw llm) = dedupById kw ++ ms ∧
      ms.Sublist llm ∧ ∀ e ∈ ms, e.id ∉ kw.map Entry.id := by
  refine ⟨dedupByIdAux_ids_nodup [] _, ?_⟩
  obtain ⟨t, h1, h2, _⟩ := addNewEntries_decomp llm kw
  rw [h1]
  unfold dedupById
  rw [dedupByIdAux_append]
  refine ⟨dedupByIdAux (kw.map Entry.id ++ []) t, rfl, ?_, ?_⟩
  · exact (dedupByIdAux_sublist _ t).trans h2
  · intro e he
    have := (mem_dedupByIdAux _ _ _ he).2
    intro hc
    exact this (List.mem_append_left _ hc)

/-- C1 counterexample: the query contains the stored filename of the fourth
candidate (delta01.txt), the model pass returns an empty id list, yet the
entry is not in the returned context — the merged selection is capped at
`max_results = 3` and the fourth keyword hit is dropped. -/
theorem C1_counterexample :
    pyContains (pyLower (pyStrip c1query)) "delta01.txt" = true ∧
    c1eD ∈ limitedCandidates c1customer 30 ∧
    matchesKeyword (pyLower (pyStrip c1query)) c1eD = true ∧
    (retrieveBlocks (some c1customer) c1query (Except.ok []) false 30 3).map Block.label
      = ["alpha01.txt", "beta01.txt", "gamma01.txt"] ∧
    ∀ b ∈ retrieveBlocks (some c1customer) c1query (Except.ok []) false 30 3,
      b.label ≠ "delta01.txt" := by decide

/-- C1 (amended): for a non-profile query, every entry among the first three
distinct-id keyword hits (collected in newest-first candidate order over the
30-candidate window) is rendered into the returned context, regardless of
what the model-assisted pass returns; keyword hits beyond the
`max_results = 3` cap may be dropped. -/
theorem C1_keyword_hit_included (c : Customer) (query : String)
    (o : Except Unit (List Nat)) (e : Entry)
    (hq : pyStrip query ≠ "")
    (hover : isInfoOverride (pyStrip query) = false)
    (he : e ∈ (dedupById (queryKeywordHits c (pyStrip query) 30)).take 3) :
    matchesKeyword (pyLower (pyStrip query)) e = true ∧
    selectedEntryBlock e ∈ retrieveBlocks (some c) query o false 30 3 := by
  have hkw : e ∈ queryKeywordHits c (pyStrip query) 30 := by
    have h1 : e ∈ dedupById (queryKeywordHits c (pyStrip query) 30) :=
      List.take_subset _ _ he
    exact (dedupByIdAux_sublist [] _).subset h1
  constructor
  · simp only [queryKeywordHits] at hkw
    exact List.of_mem_filter hkw
  · simp only [retrieveBlocks]
    rw [if_neg hq, if_neg (by simp), if_neg (by simp [hover])]
    obtain ⟨t, h1, h2, h3⟩ := addNewEntries_decomp
      (selectRelevantDataEntries o (limitedCandidates c 30))
      (queryKeywordHits c (pyStrip query) 30)
    have hms : mergedSelection c (pyStrip query) o 30 =
        dedupById (queryKeywordHits c (pyStrip query) 30) ++
          dedupByIdAux ((queryKeywordHits c (pyStrip query) 30).map Entry.id ++ []) t := by
      unfold mergedSelection
      rw [h1]
      unfold dedupById
      rw [dedupByIdAux_append]
    have hmem : e ∈ mergedSelection c (pyStrip query) o 30 := by
      rw [hms]
      exact List.mem_append_left _ (List.take_subset _ _ he)
    have hne : ¬ (mergedSelection c (pyStrip query) o 30).isEmpty = true := by
      rw [List.isEmpty_iff]
      exact List.ne_nil_of_mem hmem
    simp only [selectionBlocks]
    rw [if_neg hne]
    apply List.mem_map_of_mem
    rw [hms, List.take_append_eq_append_take]
    exact List.mem_append_left _ he

/-- Witness for C1 (amended): a query naming one stored filename retrieves
that entry's block for the empty model id list. -/
theorem C1_keyword_hit_included_witness :
    matchesKeyword (pyLower (pyStrip "summarize alpha01.txt now")) c1eA = true ∧
    selectedEntryBlock c1eA ∈
      retrieveBlocks (some c1customer) "summarize alpha01.txt now" (Except.ok []) false 30 3 :=
  C1_keyword_hit_included c1customer "summarize alpha01.txt now" (Except.ok []) c1eA
    (by decide) (by decide) (by decide)

/-- C2 counterexample: with the trigger term 风险 in the query, the override
block for the sole imported row is labeled with the raw internal token
`tblXXXX`, although the alias-resolving table-name resolution of the schema
matcher yields the configured alias `Q3 Assets` — the override path does not
group by the resolved table name. -/
theorem C2_counterexample :
    isInfoOverride (pyStrip "风险") = true ∧
    (retrieveBlocks (some c2customer) "风险" (Except.ok []) false 30 3).map Block.label
      = ["tblXXXX"] ∧
    resolveImportTableName (aliasMapFor c2env (metaGet c2meta "data_source_id")) c2meta
      = "Q3 Assets" ∧
    ¬ ("Q3 Assets" ∈ (retrieveBlocks (some c2customer) "风险" (Except.ok []) false 30 3).map
        Block.label) := by decide

/-- C2 (amended): whenever the stripped query contains a profile/analysis
trigger term, the retrieval result is independent of the model-assisted pass
and equals the override blocks: one labeled block per raw import source name
(`source_name` meta, falling back to the feishu table id, the feishu token,
then a default label — without alias resolution), grouping all import_record
rows oldest-first over the full candidate set, plus one block per remaining
non-chat entry, with no top-3 cap. -/
theorem C2_override_groups (c : Customer) (query : String)
    (o o2 : Except Unit (List Nat)) (mc mr : Nat)
    (hq : pyStrip query ≠ "") (hinc : isInfoOverride (pyStrip query) = true) :
    retrieveBlocks (some c) query o false mc mr = overrideBlocks (candidateEntries c) ∧
    retrieveBlocks (some c) query o false mc mr =
      retrieveBlocks (some c) query o2 false mc mr ∧
    (retrieveBlocks (some c) query o false mc mr).length =
      (overrideGroups (candidateEntries c)).1.length +
        (overrideGroups (candidateEntries c)).2.length := by
  have h1 : retrieveBlocks (some c) query o false mc mr =
      overrideBlocks (candidateEntries c) := by
    simp only [retrieveBlocks]
    rw [if_neg hq, if_neg (by simp), if_pos hinc]
  have h2 : retrieveBlocks (some c) query o2 false mc mr =
      overrideBlocks (candidateEntries c) := by
    simp only [retrieveBlocks]
    rw [if_neg hq, if_neg (by simp), if_pos hinc]
  refine ⟨h1, h1.trans h2.symm, ?_⟩
  rw [h1]
  unfold overrideBlocks
  rw [List.length_append, List.length_map, List.length_map]

/-- Witness for C2 (amended): the trigger query 风险 yields the override
blocks for two different model outcomes. -/
theorem C2_override_groups_witness :
    retrieveBlocks (some c2customer) "风险" (Except.ok []) false 30 3 =
      overrideBlocks (candidateEntries c2customer) ∧
    retrieveBlocks (some c2customer) "风险" (Except.ok []) false 30 3 =
      retrieveBlocks (some c2customer) "风险" (Except.ok [11]) false 30 3 ∧
    (retrieveBlocks (some c2customer) "风险" (Except.ok []) false 30 3).length =
      (overrideGroups (candidateEntries c2customer)).1.length +
        (overrideGroups (candidateEntries c2customer)).2.length :=
  C2_override_groups c2customer "风险" (Except.ok []) (Except.ok [11]) 30 3
    (by decide) (by decide)

theorem capContent_cases (s : String) :
    (capContent s).length ≤ 50000 ∨
      ((capContent s).length = 50010 ∧ ∃ pre, capContent s = pre ++ truncMarker) := by
  unfold capContent
  by_cases h : 50000 < s.length
  · right
    rw [if_pos h]
    refine ⟨?_, pyTake s 50000, rfl⟩
    rw [strLength_append, pyTake_length]
    have hm : truncMarker.length = 10 := rfl
    omega
  · left
    rw [if_neg h]
    omega

theorem retrieveBlocks_content_is_capped (cust : Option Customer) (query : String)
    (o : Except Unit (List Nat)) (fault : Bool) (mc mr : Nat) (b : Block)
    (hb : b ∈ retrieveBlocks cust query o fault mc mr) :
    ∃ s, b.content = capContent s := by
  cases cust with
  | none => simp [retrieveBlocks] at hb
  | some c =>
    simp only [retrieveBlocks] at hb
    by_cases hq : pyStrip query = ""
    · rw [if_pos hq] at hb; simp at hb
    · rw [if_neg hq] at hb
      by_cases hf : fault = true
      · rw [if_pos hf] at hb; simp at hb
      · rw [if_neg hf] at hb
        by_cases ho : isInfoOverride (pyStrip query) = true
        · rw [if_pos ho] at hb
          unfold overrideBlocks at hb
          rcases List.mem_append.mp hb with h | h
          · obtain ⟨g, _, hg⟩ := List.mem_map.mp h
            exact ⟨joinSep "\n" g.2, by rw [← hg]; rfl⟩
          · obtain ⟨e2, _, hg⟩ := List.mem_map.mp h
            exact ⟨e2.content, by rw [← hg]; rfl⟩
        · rw [if_neg ho] at hb
          simp only [selectionBlocks] at hb
          by_cases hm : (mergedSelection c (pyStrip query) o mc).isEmpty = true
          · rw [if_pos hm] at hb
            obtain ⟨e2, _, hg⟩ := List.mem_map.mp hb
            exact ⟨entryPreview e2, by rw [← hg]; rfl⟩
          · rw [if_neg hm] at hb
            obtain ⟨e2, _, hg⟩ := List.mem_map.mp hb
            exact ⟨entryPreview e2, by rw [← hg]; rfl⟩

/-- C4 counterexample: an entry with 50,001 characters of content is rendered
as a block whose content has 50,010 characters — more than the claimed
50,000-character bound (the marker is appended after the cap is taken). -/
theorem C4_counterexample :
    ∃ b ∈ retrieveBlocks (some c4customer) "check bigfile.txt" (Except.ok []) false 30 3,
      50000 < b.content.length := by
  have hb : retrieveBlocks (some c4customer) "check bigfile.txt" (Except.ok []) false 30 3
      = [selectedEntryBlock c4entry] := rfl
  refine ⟨selectedEntryBlock c4entry, ?_, ?_⟩
  · rw [hb]
    exact List.mem_singleton_self _
  · have hlen : bigText.length = 50001 := by
      unfold bigText
      rw [strLength_mk, List.length_replicate]
    simp only [selectedEntryBlock, entryPreview, c4entry]
    rw [if_neg (by decide : ¬ ("document_parse" : String) = "import_record")]
    unfold capContent
    rw [if_pos (by omega : 50000 < bigText.length)]
    rw [strLength_append, pyTake_length]
    have hm : truncMarker.length = 10 := rfl
    omega

/-- C4 (amended): every emitted block's content either stays within the
50,000-character cap, or is exactly 50,010 characters — the 50,000 retained
characters plus the 10-character truncation marker — and ends with the marker
（内容过长已截断）; over-long content is never silently dropped. -/
theorem C4_blocks_capped (cust : Option Customer) (query : String)
    (o : Except Unit (List Nat)) (fault : Bool) (mc mr : Nat) (b : Block)
    (hb : b ∈ retrieveBlocks cust query o fault mc mr) :
    b.content.length ≤ 50000 ∨
      (b.content.length = 50010 ∧ ∃ pre, b.content = pre ++ truncMarker) := by
  obtain ⟨s, hs⟩ := retrieveBlocks_content_is_capped cust query o fault mc mr b hb
  rw [hs]
  exact capContent_cases s

/-- Witness for C4 (amended) at a small concrete block. -/
theorem C4_blocks_capped_witness :
    selectedEntryBlock c4small ∈
      retrieveBlocks (some c4smallCustomer) "read small.txt" (Except.ok []) false 30 3 ∧
    ((selectedEntryBlock c4small).content.length ≤ 50000 ∨
      ((selectedEntryBlock c4small).content.length = 50010 ∧
        ∃ pre, (selectedEntryBlock c4small).content = pre ++ truncMarker)) :=
  ⟨by decide, C4_blocks_capped (some c4smallCustomer) "read small.txt" (Except.ok [])
    false 30 3 (selectedEntryBlock c4small) (by decide)⟩

theorem addTableField_keys (ts : List (String × List String)) (k f : String) :
    (addTableField ts k f).map (fun p => p.1) = ts.map (fun p => p.1) := by
  unfold addTableField
  rw [List.map_map]
  apply List.map_congr_left
  intro p _
  by_cases h : p.1 = k
  · simp [h]
  · simp [h]

theorem schemaFieldFold_tables_keys (keys : List String) (tn : String) (a : SchemaAcc) :
    ((keys.foldl (schemaFieldStep tn) a).tables).map (fun p => p.1) =
      a.tables.map (fun p => p.1) := by
  induction keys generalizing a with
  | nil => rfl
  | cons k ks ih =>
    rw [List.foldl_cons, ih]
    simp only [schemaFieldStep]
    by_cases hk : pyStrip k = ""
    · rw [if_pos hk]
    · rw [if_neg hk]
      exact addTableField_keys _ _ _

theorem schemaStep_tables_keys (env : String → List (String × String)) (acc : SchemaAcc)
    (e : Entry) (tn : String)
    (himp : pyStrip e.source_type = "import_record")
    (htn : resolveImportTableName (aliasMapFor env (metaGet e.meta "data_source_id")) e.meta = tn)
    (hkeys : acc.tables.map (fun p => p.1) = [] ∨ acc.tables.map (fun p => p.1) = [tn]) :
    (schemaStep env acc e).tables.map (fun p => p.1) = [tn] := by
  unfold schemaStep
  rw [if_neg (by simp [himp]), htn, schemaFieldFold_tables_keys]
  rcases hkeys with h | h
  · have hts : acc.tables = [] := List.map_eq_nil_iff.mp h
    rw [hts]
    rfl
  · show (ensureTable acc.tables tn).map (fun p => p.1) = [tn]
    unfold ensureTable
    rw [if_pos ?_]
    · exact h
    · rw [List.any_eq_true]
      have htn2 : tn ∈ acc.tables.map (fun p => p.1) := by
        rw [h]
        exact List.mem_singleton_self _
      obtain ⟨p, hp, hpe⟩ := List.mem_map.mp htn2
      exact ⟨p, hp, by rw [decide_eq_true_eq]; exact hpe⟩

theorem schemaFold_tables_keys (env : String → List (String × String)) (tn : String)
    (l : List Entry) (acc : SchemaAcc)
    (hl : ∀ e ∈ l, pyStrip e.source_type = "import_record" ∧
      resolveImportTableName (aliasMapFor env (metaGet e.meta "data_source_id")) e.meta = tn)
    (hacc : acc.tables.map (fun p => p.1) = [tn]) :
    ((l.foldl (schemaStep env) acc).tables).map (fun p => p.1) = [tn] := by
  induction l generalizing acc with
  | nil => exact hacc
  | cons e es ih =>
    rw [List.foldl_cons]
    apply ih
    · exact fun x hx => hl x (List.mem_cons_of_mem _ hx)
    · exact schemaStep_tables_keys env acc e tn (hl e (List.mem_cons_self _ _)).1
        (hl e (List.mem_cons_self _ _)).2 (Or.inr hacc)

theorem mem_insertAsc (x y : Entry) (l : List Entry) :
    y ∈ insertAsc x l ↔ y = x ∨ y ∈ l := by
  induction l with
  | nil => simp [insertAsc]
  | cons z zs ih =>
    unfold insertAsc
    by_cases h : x.created_at < z.created_at
    · rw [if_pos h]
      simp [List.mem_cons]
    · rw [if_neg h]
      simp only [List.mem_cons, ih]
      tauto

theorem mem_foldl_insertAsc (l acc : List Entry) (y : Entry) :
    y ∈ l.foldl (fun a x => insertAsc x a) acc ↔ y ∈ acc ∨ y ∈ l := by
  induction l generalizing acc with
  | nil => simp
  | cons x xs ih =>
    rw [List.foldl_cons, ih, mem_insertAsc]
    simp only [List.mem_cons]
    tauto

theorem mem_sortOldestFirst (l : List Entry) (y : Entry) :
    y ∈ sortOldestFirst l ↔ y ∈ l := by
  unfold sortOldestFirst
  rw [mem_foldl_insertAsc]
  simp

/-- C7: when an imported row's raw source name looks like an internal
token/table identifier and a nonempty alias is configured for its feishu
token, `_resolve_import_table_name` returns the configured alias, and for any
nonempty collection of import_record entries carrying that meta the schema's
`table_names` is exactly the alias — never the raw identifier. -/
theorem C7_alias_over_internal (env : String → List (String × String))
    (m : List (String × String)) (t a : String)
    (hint : looksLikeInternalTableName (metaD m "source_name") = true)
    (htok : metaD m "_feishu_token" = t) (ht : t ≠ "")
    (htid : metaD m "_feishu_table_id" = "")
    (ha : (aliasLookup (aliasMapFor env (metaGet m "data_source_id")) t).getD "" = a)
    (hane : a ≠ "") :
    resolveImportTableName (aliasMapFor env (metaGet m "data_source_id")) m = a ∧
    ∀ (l : List Entry), l ≠ [] →
      (∀ e ∈ l, e.meta = m ∧ pyStrip e.source_type = "import_record") →
      schemaTableNames (buildCustomerImportSchema env (some ⟨l⟩)) = [a] := by
  have hres : resolveImportTableName (aliasMapFor env (metaGet m "data_source_id")) m = a := by
    simp only [resolveImportTableName, htok, htid]
    rw [if_neg (by simp [hint]), if_neg ht]
    have h0 : (if ("" : String) ≠ "" then
        (aliasLookup (aliasMapFor env (metaGet m "data_source_id")) (t ++ ":" ++ "")).getD ""
      else "") = "" := by simp
    rw [h0, if_neg (by simp), ha, if_pos hane]
  refine ⟨hres, ?_⟩
  intro l hl hall
  have hcond : ∀ e ∈ sortOldestFirst l, pyStrip e.source_type = "import_record" ∧
      resolveImportTableName (aliasMapFor env (metaGet e.meta "data_source_id")) e.meta = a := by
    intro e he
    obtain ⟨hm, hi⟩ := hall e ((mem_sortOldestFirst l e).mp he)
    rw [hm]
    exact ⟨hi, hres⟩
  have hne : sortOldestFirst l ≠ [] := by
    cases l with
    | nil => exact absurd rfl hl
    | cons e es =>
      intro hc
      have : e ∈ sortOldestFirst (e :: es) :=
        (mem_sortOldestFirst _ _).mpr (List.mem_cons_self _ _)
      rw [hc] at this
      simp at this
  show ((sortOldestFirst l).foldl (schemaStep env) ⟨[], []⟩).tables.map (fun p => p.1) = [a]
  cases hs : sortOldestFirst l with
  | nil => exact absurd hs hne
  | cons e es =>
    rw [List.foldl_cons]
    apply schemaFold_tables_keys env a es
    · intro x hx
      exact hcond x (by rw [hs]; exact List.mem_cons_of_mem _ hx)
    · have he : e ∈ sortOldestFirst l := by rw [hs]; exact List.mem_cons_self _ _
      exact schemaStep_tables_keys env ⟨[], []⟩ e a (hcond e he).1 (hcond e he).2 (Or.inl rfl)

/-- Witness for C7: two imported rows sharing the internal raw token with the
alias Q3 Assets configured. -/
theorem C7_alias_over_internal_witness :
    resolveImportTableName (aliasMapFor c2env (metaGet c2meta "data_source_id")) c2meta
      = "Q3 Assets" ∧
    schemaTableNames (buildCustomerImportSchema c2env
      (some ⟨[c2entry, ⟨12, "import_record", "", c2meta, 6⟩]⟩)) = ["Q3 Assets"] := by
  have h := C7_alias_over_internal c2env c2meta "bascnB1" "Q3 Assets"
    (by decide) (by decide) (by decide) (by decide) (by decide) (by decide)
  exact ⟨h.1, h.2 [c2entry, ⟨12, "import_record", "", c2meta, 6⟩] (by decide) (by decide)⟩

end AIagent
